import Mathlib

/-!
Verification of the evergreen-universe-rs gateway binaries.

Shallow embedding of:
* `src/evergreen/src/bin/eg-http-gateway.rs` (HTTP gateway: partial
  reassembly, scrub_nulls, relay loop, response formation),
* `src/opensrf/src/bin/websockets.rs` (WebSocket gateway session:
  backlog queue, in-flight counter, session-to-peer cache, routing),
* `src/opensrf/src/bin/buswatch.rs` (bus-watch TTL pass).

External crates (`json`, the IDL unpacker, `Message::from_json_value`
from the opensrf message module, which is not part of the sources under
verification) are modelled as explicit function parameters, so every
theorem is stated for an arbitrary choice of those collaborators unless
the claim pins one down.
-/

/-- JSON values, modelling `json::JsonValue` of the `json` crate.
Numbers are modelled as integers; none of the verified code paths
computes with numeric values. -/
inductive Json where
  | null
  | bool (b : Bool)
  | num (n : Int)
  | str (s : String)
  | arr (elems : List Json)
  | obj (members : List (String × Json))
deriving Repr, Inhabited, BEq

/-- `JsonValue::is_null`. -/
def Json.isNull : Json → Bool
  | .null => true
  | _ => false

/-- `JsonValue::as_str`: `Some` exactly for JSON strings. -/
def Json.asStr : Json → Option String
  | .str s => some s
  | _ => none

/-- `JsonValue::is_object`. -/
def Json.isObject : Json → Bool
  | .obj _ => true
  | _ => false

/-- `JsonValue::is_array`. -/
def Json.isArray : Json → Bool
  | .arr _ => true
  | _ => false

/-- Object member lookup, modelling `wrapper["key"]` of the `json`
crate, which yields JSON null when the key is missing or the value is
not an object. -/
def Json.get (j : Json) (k : String) : Json :=
  match j with
  | .obj members =>
    match members.find? (fun kv => kv.1 == k) with
    | some kv => kv.2
    | none => .null
  | _ => .null

mutual

/-- `GatewayHandler::scrub_nulls` from eg-http-gateway.rs: recursively
remove every JSON null member of an object and null element of an
array; all other values are returned unchanged. -/
def scrub_nulls : Json → Json
  | .obj members => .obj (scrubMembers members)
  | .arr elems => .arr (scrubElems elems)
  | v => v

/-- The array loop of `scrub_nulls`: scrub each element in order and
drop the ones that scrub to null. -/
def scrubElems : List Json → List Json
  | [] => []
  | v :: rest =>
    match scrub_nulls v with
    | .null => scrubElems rest
    | s => s :: scrubElems rest

/-- The object loop of `scrub_nulls`: scrub each member value in order
and drop the members whose value scrubs to null. -/
def scrubMembers : List (String × Json) → List (String × Json)
  | [] => []
  | (k, v) :: rest =>
    match scrub_nulls v with
    | .null => scrubMembers rest
    | s => (k, s) :: scrubMembers rest

end

mutual

/-- No JSON null occurs as an object member value or array element,
at any depth. -/
def noNulls : Json → Bool
  | .obj members => noNullsMembers members
  | .arr elems => noNullsElems elems
  | _ => true

/-- `noNulls` over array elements. -/
def noNullsElems : List Json → Bool
  | [] => true
  | v :: rest => !v.isNull && noNulls v && noNullsElems rest

/-- `noNulls` over object members. -/
def noNullsMembers : List (String × Json) → Bool
  | [] => true
  | (_, v) :: rest => !v.isNull && noNulls v && noNullsMembers rest

end

/-- OpenSRF message status codes used by the verified binaries.
Modelled from the spec: the `MessageStatus` enum lives in the opensrf
message module, which is not under src/; the spec fixes `Continue`,
`Ok`, `Complete`, `Partial`, `PartialComplete` and "error codes >=
BadRequest (treated as terminal failures)".  `msPartialChunk` is the
source's `Partial` status. -/
inductive MessageStatus where
  | msContinue
  | msOk
  | msAccepted
  | msPartialComplete
  | msComplete
  | msPartialChunk
  | msRedirected
  | msBadRequest
  | msUnauthorized
  | msForbidden
  | msMethodNotFound
  | msNotAllowed
  | msInternalServerErr
deriving Repr, DecidableEq

/-- Numeric status codes (Modelled from the spec / standard OSRF codes);
only the order relative to `BadRequest = 400` matters to the code. -/
def statusCode : MessageStatus → Nat
  | .msContinue => 100
  | .msOk => 200
  | .msAccepted => 202
  | .msPartialComplete => 204
  | .msComplete => 205
  | .msPartialChunk => 206
  | .msRedirected => 307
  | .msBadRequest => 400
  | .msUnauthorized => 401
  | .msForbidden => 403
  | .msMethodNotFound => 404
  | .msNotAllowed => 405
  | .msInternalServerErr => 500

/-- `MessageType` of the opensrf message module. -/
inductive MessageType where
  | connect
  | request
  | result
  | status
  | disconnect
deriving Repr, DecidableEq

/-- Message payloads as used by the gateways: an API call, a result
carrying a content value, a status, or nothing. -/
inductive Payload where
  | method (name : String) (params : List Json)
  | result (rstatus : MessageStatus) (content : Json)
  | status (st : MessageStatus)
  | noPayload
deriving Repr

/-- One OpenSRF sub-message.  Fields not read by the verified binaries
(thread_trace, locale, api_level) are omitted. -/
structure Message where
  mtype : MessageType
  payload : Payload
  ingress : String
deriving Repr

/-- `TransportMessage`: the envelope.  `toAddr` and `fromAddr` are the
source's `to` and `from` fields (both unusable as Lean field names). -/
structure TransportMessage where
  toAddr : String
  fromAddr : String
  thread : String
  osrf_xid : String
  body : List Message
deriving Repr

/-- `GatewayRequestFormat` from eg-http-gateway.rs. -/
inductive GatewayRequestFormat where
  | fieldmapper
  | raw
  | rawslim
deriving Repr, DecidableEq

/-- `From<&str> for GatewayRequestFormat`. -/
def formatFromStr (s : String) : GatewayRequestFormat :=
  if s = "raw" then .raw
  else if s = "rawslim" then .rawslim
  else .fieldmapper

/-- `GatewayRequestFormat::is_raw`. -/
def GatewayRequestFormat.is_raw (f : GatewayRequestFormat) : Bool :=
  f = .raw || f = .rawslim

/-- Modelled from the spec: `Status::to_json_value` of the opensrf
message module (not under src/).  The claims only need that an
unexpected status is surfaced as a JSON error value. -/
def statusToJson (s : MessageStatus) : Json :=
  .obj [("status", .num (statusCode s))]

/-- The state `extract_responses` reads and writes while walking one
or more message bodies: the worker's `partial_buffer` field, the
accumulated reply values, the `complete` out-flag, and a pending
`Err` value (the Rust early return). -/
structure EgExtractSt where
  partial_buffer : Option String
  replies : List Json
  complete : Bool
  err : Option Json
deriving Repr

/-- The format post-processing applied to each full content value in
`extract_responses`: raw formats run the IDL `unpack` (an external
collaborator, passed as a parameter), and `rawslim` additionally
scrubs nulls. -/
def egApplyFormat (unpack : Json → Json) (format : GatewayRequestFormat)
    (content : Json) : Json :=
  if format.is_raw then
    let c := unpack content
    if format = .rawslim then scrub_nulls c else c
  else content

/-- One iteration of the `for resp in tm.body()` loop of
`extract_responses`.  `jparse` models `json::parse` of the external
`json` crate.  Once `err` is set the remaining messages are not
processed (the Rust `?` early return). -/
def egProcessResp (unpack : Json → Json) (jparse : String → Except String Json)
    (format : GatewayRequestFormat) (st : EgExtractSt) (m : Message) : EgExtractSt :=
  if st.err.isSome then st
  else
    match m.payload with
    | .result rstatus content =>
      if rstatus = .msPartialChunk then
        -- Partial: create the buffer if absent, append the chunk when
        -- the content is a JSON string, and keep reading.
        let buf := st.partial_buffer.getD ""
        let buf := match content.asStr with
          | some chunk => buf ++ chunk
          | none => buf
        { st with partial_buffer := some buf }
      else if rstatus = .msPartialComplete then
        -- PartialComplete: take + clear the buffer, append any trailing
        -- chunk, re-parse the whole buffer as JSON.
        let buf := st.partial_buffer.getD ""
        let buf := match content.asStr with
          | some chunk => buf ++ chunk
          | none => buf
        match jparse buf with
        | .error e =>
          { st with partial_buffer := none,
                    err := some (.str ("Error reconstituting partial message: " ++ e)) }
        | .ok v =>
          { st with partial_buffer := none,
                    replies := st.replies ++ [egApplyFormat unpack format v] }
      else
        { st with replies := st.replies ++ [egApplyFormat unpack format content] }
    | .status s =>
      match s with
      | .msComplete => { st with complete := true }
      | .msOk => st
      | .msContinue => st
      | s2 => { st with err := some (statusToJson s2) }
    | _ => st

/-- `extract_responses` over one transport-message body, threading the
handler state. -/
def extract_responses (unpack : Json → Json) (jparse : String → Except String Json)
    (format : GatewayRequestFormat) (st : EgExtractSt) (body : List Message) : EgExtractSt :=
  body.foldl (egProcessResp unpack jparse format) st

/-- One `Bus::recv` outcome inside the gateway relay loop: a received
transport message, or a bus-level error.  Exhaustion of the event list
models `recv` returning `None` (timeout). -/
inductive RecvEvent where
  | msg (tm : TransportMessage)
  | busErr (e : String)
deriving Repr

/-- The `loop` of `relay_to_osrf` in eg-http-gateway.rs: pull replies
until a Complete status, an error, or a timeout.  Returns the relay
result together with the worker's `partial_buffer` as left by the run
(the buffer is a `GatewayHandler` field and is never reset by the
loop itself). -/
def gwRelayLoop (unpack : Json → Json) (jparse : String → Except String Json)
    (format : GatewayRequestFormat) (buf : Option String) (replies : List Json)
    (events : List RecvEvent) : Except Json (List Json) × Option String :=
  match events with
  | [] => (.ok replies, buf)
  | .busErr e :: _ => (.error (.str e), buf)
  | .msg tm :: rest =>
    let st := extract_responses unpack jparse format
      ⟨buf, replies, false, none⟩ tm.body
    match st.err with
    | some e => (.error e, st.partial_buffer)
    | none =>
      if st.complete then (.ok st.replies, st.partial_buffer)
      else gwRelayLoop unpack jparse format st.partial_buffer st.replies rest

/-- `relay_to_osrf` of the HTTP gateway, starting with an empty reply
list.  The outbound send is not modelled (its failure is the
`RecvEvent.busErr` case at the head of the event list). -/
def relay_to_osrf_gw (unpack : Json → Json) (jparse : String → Except String Json)
    (format : GatewayRequestFormat) (buf : Option String)
    (events : List RecvEvent) : Except Json (List Json) × Option String :=
  gwRelayLoop unpack jparse format buf [] events

/-- `Content-Type: text/json`, the constant `HTTP_CONTENT_TYPE`. -/
def HTTP_CONTENT_TYPE : String := "Content-Type: text/json"

/-- The response assembled by `handle_request`, by component: status
line, the two headers, and the body text.  The raw wire string is the
concatenation of the present pieces. -/
structure GwResponse where
  leader : String
  contentType : Option String
  contentLength : Option Nat
  body : String
deriving Repr

/-- The `match req.http_method.as_str()` of `handle_request`:
HEAD gets headers only, GET/POST get headers plus the body `data`,
anything else gets a bare 405 status line.  `data.utf8ByteSize` is
Rust's `data.as_bytes().len()`. -/
def gwBuildResponse (http_method leader data : String) : GwResponse :=
  if http_method = "HEAD" then
    ⟨leader, some HTTP_CONTENT_TYPE, some data.utf8ByteSize, ""⟩
  else if http_method = "GET" ∨ http_method = "POST" then
    ⟨leader, some HTTP_CONTENT_TYPE, some data.utf8ByteSize, data⟩
  else
    ⟨"HTTP/1.1 405 Method Not Allowed", none, none, ""⟩

/-- `handle_request` after request parsing: run the relay once, pick
the 200 or 400 leader, serialize the reply array with the external
`dump` (the `json` crate serializer, a parameter), and build the
response.  Also returns the worker's `partial_buffer` as left by the
relay; `handle_request` never resets it. -/
def handle_request_gw (dump : Json → String) (unpack : Json → Json)
    (jparse : String → Except String Json) (format : GatewayRequestFormat)
    (http_method : String) (buf : Option String)
    (events : List RecvEvent) : GwResponse × Option String :=
  let r := relay_to_osrf_gw unpack jparse format buf events
  let lr : String × List Json := match r.1 with
    | .ok replies => ("HTTP/1.1 200 OK", replies)
    | .error e => ("HTTP/1.1 400 Bad Request", [e])
  (gwBuildResponse http_method lr.1 (dump (Json.arr lr.2)), r.2)

/-- `MAX_THREAD_SIZE` from websockets.rs. -/
def MAX_THREAD_SIZE : Nat := 256

/-- `MAX_MESSAGE_SIZE` from websockets.rs (~10 MiB). -/
def MAX_MESSAGE_SIZE : Nat := 10485760

/-- `MAX_ACTIVE_REQUESTS` from websockets.rs. -/
def MAX_ACTIVE_REQUESTS : Nat := 8

/-- `MAX_BACKLOG_SIZE` from websockets.rs. -/
def MAX_BACKLOG_SIZE : Nat := 1000

/-- `WEBSOCKET_INGRESS` from websockets.rs. -/
def WEBSOCKET_INGRESS : String := "ws-translator-v3"

/-- Modelled from the spec: `ServiceAddress::new(..).as_str()` of the
opensrf addr module (not under src/); a printable service address. -/
def serviceAddress (service : String) : String :=
  "opensrf:service:" ++ service

/-- Modelled from the spec: `RouterAddress::new(..).as_str()`; the
well-known router queue of a domain. -/
def routerAddress (domain : String) : String :=
  "opensrf:router:" ++ domain

/-- `HashMap<String,String>` lookup, for `osrf_sessions`. -/
def alGet (l : List (String × String)) (k : String) : Option String :=
  (l.find? (fun p => p.1 == k)).map Prod.snd

/-- `HashMap::insert` (replacing any existing binding). -/
def alPut (l : List (String × String)) (k v : String) : List (String × String) :=
  (k, v) :: l.filter (fun p => !(p.1 == k))

/-- `HashMap::remove`. -/
def alDel (l : List (String × String)) (k : String) : List (String × String) :=
  l.filter (fun p => !(p.1 == k))

/-- The parts of the websocket `Session` struct that `relay_to_osrf`
and `relay_to_websocket` read and write: the session-to-peer cache,
the in-flight counter and the sender bus address/domain.  The
`request_queue` and `max_parallel` fields live in `WsSession`. -/
structure WsCore where
  osrf_sessions : List (String × String)
  reqs_in_flight : Nat
  senderAddr : String
  senderDomain : String
deriving Repr

/-- One message pushed onto an OpenSRF bus queue (`Bus::send` pushes
to the queue named by `tm.to`; `Bus::send_to` to an explicit queue). -/
structure BusSend where
  queue : String
  tm : TransportMessage
deriving Repr

/-- The inbound websocket frames of `websocket::OwnedMessage` that
`handle_inbound_message` distinguishes; `otherFrame` covers
Pong/Binary (warned about and ignored). -/
inductive OwnedMessage where
  | text (s : String)
  | ping (s : String)
  | close
  | otherFrame
deriving Repr

/-- The reply object `relay_to_websocket` serializes back to the
websocket client (note the `oxrf_xid` key, a wire-compatibility typo
kept verbatim). -/
structure WsReplyMsg where
  oxrf_xid : String
  thread : String
  osrf_msg : List Message
  transport_error : Bool
deriving Repr

/-- Observable session effects: a bus send, a Pong frame, or a text
reply frame to the websocket client. -/
inductive WsEffect where
  | busSend (b : BusSend)
  | pong (s : String)
  | wsReply (r : WsReplyMsg)
deriving Repr

/-- The per-message body loop of the websocket `relay_to_osrf`:
stop at a JSON null, convert each JSON value to a `Message` (via the
external `mfj`, modelling `Message::from_json_value`), set the
ingress, and apply the message-type actions: Connect and Request
increment `reqs_in_flight` (Request additionally requires a Method
payload, else `log_request` fails), Disconnect drops the thread from
`osrf_sessions`, anything else is an error.  On error the Rust
session thread exits, so the partially-updated state is never
observed and is not returned here. -/
def wsBuildBody (mfj : Json → Option Message) (thread : String) (core : WsCore) :
    List Json → Except String (WsCore × List Message)
  | [] => .ok (core, [])
  | j :: rest =>
    if j.isNull then .ok (core, [])
    else
      match mfj j with
      | none => .error "could not create message from JSON"
      | some m0 =>
        let m := { m0 with ingress := WEBSOCKET_INGRESS }
        let step : Except String WsCore :=
          match m.mtype with
          | .connect => .ok { core with reqs_in_flight := core.reqs_in_flight + 1 }
          | .request =>
            match m.payload with
            | .method _ _ => .ok { core with reqs_in_flight := core.reqs_in_flight + 1 }
            | _ => .error "WS received Request with no payload"
          | .disconnect =>
            .ok { core with osrf_sessions := alDel core.osrf_sessions thread }
          | _ => .error "WS received unexpected message type"
        match step with
        | .error e => .error e
        | .ok core2 =>
          match wsBuildBody mfj thread core2 rest with
          | .error e => .error e
          | .ok (core3, msgsOut) => .ok (core3, m :: msgsOut)

/-- The `osrf_msg` list of a parsed frame: an array as-is, any other
value wrapped as a singleton (the non-array convenience case). -/
def wsMsgList (wrapper : Json) : List Json :=
  match wrapper.get "osrf_msg" with
  | .arr es => es
  | j => [j]

/-- `relay_to_osrf` from websockets.rs: parse the frame (via the
external `jparse`), extract thread / log_xid / service, pick the
recipient from the `osrf_sessions` cache or fall back to the service
address via the domain router, build the body, and emit exactly one
bus send.  `mkxid` models `Logger::mk_log_trace()`. -/
def relay_to_osrf_ws (jparse : String → Except String Json)
    (mfj : Json → Option Message) (mkxid : String) (core : WsCore)
    (json_text : String) : Except String (WsCore × List BusSend) :=
  match jparse json_text with
  | .error e => .error ("Cannot parse websocket message: " ++ e)
  | .ok wrapper =>
    let xid := ((wrapper.get "log_xid").asStr).getD mkxid
    match (wrapper.get "thread").asStr with
    | none => .error "websocket message has no thread key"
    | some thread =>
      if thread.utf8ByteSize > MAX_THREAD_SIZE then
        .error "Thread exceeds max thread size; dropping"
      else
        match (wrapper.get "service").asStr with
        | none => .error "service name is required"
        | some service =>
          let pair : String × Option String :=
            match alGet core.osrf_sessions thread with
            | some a => (a, none)
            | none => (serviceAddress service, some (routerAddress core.senderDomain))
          match wsBuildBody mfj thread core (wsMsgList wrapper) with
          | .error e => .error e
          | .ok (core2, body) =>
            let tm : TransportMessage :=
              ⟨pair.1, core2.senderAddr, thread, xid, body⟩
            match pair.2 with
            | some router => .ok (core2, [⟨router, tm⟩])
            | none => .ok (core2, [⟨pair.1, tm⟩])

/-- `handle_inbound_message` from websockets.rs, acting on the
`request_queue`: oversized Text frames are dropped, frames arriving
with a full backlog are dropped, otherwise the text is appended; Ping
produces a Pong; only Close reports `true` (closing).  `s.utf8ByteSize`
is Rust's `text.len()`. -/
def handle_inbound_message_ws (queue : List String) (msg : OwnedMessage) :
    List String × List WsEffect × Bool :=
  match msg with
  | .text s =>
    if s.utf8ByteSize ≥ MAX_MESSAGE_SIZE then (queue, [], false)
    else if queue.length ≥ MAX_BACKLOG_SIZE then (queue, [], false)
    else (queue ++ [s], [], false)
  | .ping s => (queue, [.pong s], false)
  | .close => (queue, [], true)
  | .otherFrame => (queue, [], false)

/-- One sub-message of the `relay_to_websocket` status scan: `Ok`
decrements the in-flight counter (guarded against underflow) and
caches thread-to-peer; `Complete` decrements; a status at or above
`BadRequest` decrements, flags a transport error and evicts the
thread from the cache. -/
def wsStatusStep (thread fromAddr : String) (acc : WsCore × Bool)
    (m : Message) : WsCore × Bool :=
  match m.payload with
  | .status s =>
    let core := acc.1
    if s = .msOk then
      ({ core with
          reqs_in_flight :=
            if core.reqs_in_flight > 0 then core.reqs_in_flight - 1
            else core.reqs_in_flight,
          osrf_sessions := alPut core.osrf_sessions thread fromAddr }, acc.2)
    else if s = .msComplete then
      ({ core with
          reqs_in_flight :=
            if core.reqs_in_flight > 0 then core.reqs_in_flight - 1
            else core.reqs_in_flight }, acc.2)
    else if statusCode s ≥ statusCode .msBadRequest then
      ({ core with
          reqs_in_flight :=
            if core.reqs_in_flight > 0 then core.reqs_in_flight - 1
            else core.reqs_in_flight,
          osrf_sessions := alDel core.osrf_sessions thread }, true)
    else acc
  | _ => acc

/-- `relay_to_websocket` from websockets.rs: scan the body statuses,
then send one text frame holding the whole body (with the
`transport_error` marker when a terminal status was seen). -/
def relay_to_websocket_ws (core : WsCore) (tm : TransportMessage) :
    WsCore × WsReplyMsg :=
  let acc := tm.body.foldl (wsStatusStep tm.thread tm.fromAddr) (core, false)
  (acc.1, ⟨tm.osrf_xid, tm.thread, tm.body, acc.2⟩)

/-- The websocket `Session` state owned by the main task. -/
structure WsSession where
  core : WsCore
  request_queue : List String
  max_parallel : Nat
deriving Repr

/-- The `while reqs_in_flight < max_parallel` loop of
`process_message_queue`, popping queued texts and relaying each. -/
def processQueueAux (jparse : String → Except String Json)
    (mfj : Json → Option Message) (mkxid : String) (maxPar : Nat)
    (core : WsCore) : List String →
    Except String (WsCore × List String × List BusSend)
  | [] => .ok (core, [], [])
  | text :: rest =>
    if core.reqs_in_flight < maxPar then
      match relay_to_osrf_ws jparse mfj mkxid core text with
      | .error e => .error e
      | .ok (core2, sends) =>
        match processQueueAux jparse mfj mkxid maxPar core2 rest with
        | .error e => .error e
        | .ok (core3, q3, sends3) => .ok (core3, q3, sends ++ sends3)
    else .ok (core, text :: rest, [])

/-- `process_message_queue` on the full session state. -/
def process_message_queue_ws (jparse : String → Except String Json)
    (mfj : Json → Option Message) (mkxid : String) (s : WsSession) :
    Except String (WsSession × List BusSend) :=
  match processQueueAux jparse mfj mkxid s.max_parallel s.core s.request_queue with
  | .error e => .error e
  | .ok (core2, q2, sends) =>
    .ok ({ s with core := core2, request_queue := q2 }, sends)

/-- A message on the main task's channel. -/
inductive ChannelMessage where
  | inbound (m : OwnedMessage)
  | outbound (tm : TransportMessage)
deriving Repr

/-- Outcome of one iteration of the `listen` loop. -/
inductive StepRes where
  | closed
  | failed (e : String)
  | next (s : WsSession) (outs : List WsEffect)
deriving Repr

/-- One iteration of `Session::listen`: handle the channel message
(inbound frame or outbound reply), then drain the request queue
subject to `max_parallel`. -/
def sessionStep (jparse : String → Except String Json)
    (mfj : Json → Option Message) (mkxid : String) (s : WsSession)
    (cm : ChannelMessage) : StepRes :=
  match cm with
  | .inbound m =>
    let r := handle_inbound_message_ws s.request_queue m
    if r.2.2 then .closed
    else
      match process_message_queue_ws jparse mfj mkxid
          { s with request_queue := r.1 } with
      | .error e => .failed e
      | .ok (s2, sends) => .next s2 (r.2.1 ++ sends.map .busSend)
  | .outbound tm =>
    let rr := relay_to_websocket_ws s.core tm
    match process_message_queue_ws jparse mfj mkxid { s with core := rr.1 } with
    | .error e => .failed e
    | .ok (s2, sends) => .next s2 (.wsReply rr.2 :: sends.map .busSend)

/-- Run the listen loop over a list of channel messages; `none` when
the session closed or failed along the way. -/
def runToState (jparse : String → Except String Json)
    (mfj : Json → Option Message) (mkxid : String) (s : WsSession) :
    List ChannelMessage → Option WsSession
  | [] => some s
  | cm :: rest =>
    match sessionStep jparse mfj mkxid s cm with
    | .next s2 _ => runToState jparse mfj mkxid s2 rest
    | _ => none

/-- A fresh websocket session as built in `Session::run`. -/
def initSession (addr domain : String) (maxPar : Nat) : WsSession :=
  ⟨⟨[], 0, addr, domain⟩, [], maxPar⟩

/-- Is the message a Connect or a Request (the two kinds that
increment `reqs_in_flight`)? -/
def isCR (m : Message) : Bool :=
  m.mtype = .connect || m.mtype = .request

/-- Count the Connect/Request messages the body loop would process in
a frame's `osrf_msg` list (stopping at the first null, as the loop
does). -/
def crCountList (mfj : Json → Option Message) : List Json → Nat
  | [] => 0
  | j :: rest =>
    if j.isNull then 0
    else
      (match mfj j with
        | some m => if isCR m then 1 else 0
        | none => 0) + crCountList mfj rest

/-- Connect/Request count of one inbound frame text. -/
def frameCRCount (jparse : String → Except String Json)
    (mfj : Json → Option Message) (text : String) : Nat :=
  match jparse text with
  | .error _ => 0
  | .ok wrapper => crCountList mfj (wsMsgList wrapper)

/-- `DEFAULT_WAIT_TIME` from buswatch.rs (seconds between ticks). -/
def DEFAULT_WAIT_TIME : Nat := 60

/-- `DEFAULT_KEY_EXPIRE_SECS` from buswatch.rs. -/
def DEFAULT_KEY_EXPIRE_SECS : Nat := 1800

/-- One enumerated `opensrf:*` key as seen by a bus-watch tick: its
name, its reported list length and its reported ttl. -/
structure BusKeySt where
  name : String
  llen : Nat
  ttl : Int
deriving Repr

/-- The per-key TTL action of one `watch` tick (error-free pass): the
watcher walks every enumerated key in order and calls
`set_key_timeout(key, ttl_config)` exactly when the key's reported
ttl is -1.  The list-length/stat reads do not influence this
decision and are omitted. -/
def buswatchPass (ttlConf : Nat) (keys : List BusKeySt) : List (String × Nat) :=
  keys.filterMap (fun k => if k.ttl = -1 then some (k.name, ttlConf) else none)

/-- Escape one character for JSON string output. -/
def escapeChar (c : Char) : String :=
  if c = '"' then "\\\""
  else if c = '\\' then "\\\\"
  else if c = '\n' then "\\n"
  else if c = '\r' then "\\r"
  else if c = '\t' then "\\t"
  else String.singleton c

/-- Escape a string for JSON output. -/
def escapeString (s : String) : String :=
  s.data.foldl (fun acc c => acc ++ escapeChar c) ""

mutual

/-- A concrete JSON serializer in the style of `JsonValue::dump`,
used to instantiate the `dump` parameter in closed statements. -/
def jdump : Json → String
  | .null => "null"
  | .bool true => "true"
  | .bool false => "false"
  | .num n => toString n
  | .str s => "\"" ++ escapeString s ++ "\""
  | .arr es => "[" ++ jdumpElems es ++ "]"
  | .obj ms => "\x7b" ++ jdumpMembers ms ++ "\x7d"

/-- Comma-joined array elements. -/
def jdumpElems : List Json → String
  | [] => ""
  | [e] => jdump e
  | e :: rest => jdump e ++ "," ++ jdumpElems rest

/-- Comma-joined object members. -/
def jdumpMembers : List (String × Json) → String
  | [] => ""
  | [(k, v)] => "\"" ++ escapeString k ++ "\":" ++ jdump v
  | (k, v) :: rest => "\"" ++ escapeString k ++ "\":" ++ jdump v ++ "," ++ jdumpMembers rest

end

/-- The identity IDL unpacker, a concrete instance for closed
statements (the IDL is an external collaborator). -/
def jid : Json → Json := fun j => j

/-- A concrete `json::parse` stand-in that rejects every string. -/
def jparseNone : String → Except String Json := fun _ => .error "parse error"

/-- A concrete `Message::from_json_value` stand-in that rejects every
value. -/
def mfjNone : Json → Option Message := fun _ => none

/-- A concrete `json::parse` stand-in recognising exactly the
reassembled text of the partial-message examples. -/
def cjpC1 : String → Except String Json := fun s =>
  if s = "\x7b\"a\":1\x7d" then .ok (Json.obj [("a", Json.num 1)])
  else .error "bad json"

/-- A `Result` sub-message with the given status and content. -/
def resultMsg (st : MessageStatus) (c : Json) : Message :=
  ⟨.result, .result st c, ""⟩

/-- A `Status` sub-message. -/
def statusMsg (st : MessageStatus) : Message :=
  ⟨.status, .status st, ""⟩

/-- A reply transport message with fixed envelope fields, for closed
statements. -/
def tmOf (body : List Message) : TransportMessage :=
  ⟨"", "", "thread1", "xid1", body⟩

/-- Concrete message-parser stand-in for the websocket examples:
"C" is a Connect, "R" a Request with a Method payload, "D" a
Disconnect. -/
def cmfjWs : Json → Option Message := fun j =>
  match j with
  | .str "C" => some ⟨.connect, .noPayload, ""⟩
  | .str "R" => some ⟨.request, .method "m" [], ""⟩
  | .str "D" => some ⟨.disconnect, .noPayload, ""⟩
  | _ => none

/-- A frame whose body holds a Connect and a Request (two in-flight
increments in one frame). -/
def frameD : Json :=
  .obj [("thread", .str "T"), ("service", .str "svc"),
        ("osrf_msg", .arr [.str "C", .str "R"])]

/-- A frame whose body holds a single Request. -/
def frameS : Json :=
  .obj [("thread", .str "T"), ("service", .str "svc"),
        ("osrf_msg", .arr [.str "R"])]

/-- A frame whose body holds a single Disconnect. -/
def frameDisc : Json :=
  .obj [("thread", .str "T"), ("service", .str "svc"),
        ("osrf_msg", .arr [.str "D"])]

/-- Concrete frame parser for the websocket examples: "d" is the
two-message frame, "s" the single-request frame, "x" the disconnect
frame. -/
def cjpWs : String → Except String Json := fun s =>
  if s = "d" then .ok frameD
  else if s = "s" then .ok frameS
  else if s = "x" then .ok frameDisc
  else .error "parse error"

/-- An inbound sequence of five Text frames whose relays push
`reqs_in_flight` to 2, 4, 6, 7 and then 9. -/
def wsRunInputs : List ChannelMessage :=
  [.inbound (.text "d"), .inbound (.text "d"), .inbound (.text "d"),
   .inbound (.text "s"), .inbound (.text "d")]

/-- Concatenation of a chunk list (the arrival-order concatenation of
partial chunks). -/
def strConcat : List String → String
  | [] => ""
  | s :: rest => s ++ strConcat rest

/-- The content value of a `PartialComplete` result carrying an
optional final chunk: a JSON string, or a non-string value (here
null), which the gateway ignores. -/
def finalJson : Option String → Json
  | some s => .str s
  | none => .null

mutual

theorem scrub_noNulls : (x : Json) → noNulls (scrub_nulls x) = true
  | .null => rfl
  | .bool _ => rfl
  | .num _ => rfl
  | .str _ => rfl
  | .arr es => by simpa [scrub_nulls, noNulls] using scrubElems_noNulls es
  | .obj ms => by simpa [scrub_nulls, noNulls] using scrubMembers_noNulls ms

theorem scrubElems_noNulls : (es : List Json) → noNullsElems (scrubElems es) = true
  | [] => rfl
  | v :: rest => by
    have hv := scrub_noNulls v
    have hr := scrubElems_noNulls rest
    cases h : scrub_nulls v with
    | null => simpa [scrubElems, h] using hr
    | bool b => rw [h] at hv; simp [scrubElems, h, noNullsElems, Json.isNull, hv, hr]
    | num n => rw [h] at hv; simp [scrubElems, h, noNullsElems, Json.isNull, hv, hr]
    | str s => rw [h] at hv; simp [scrubElems, h, noNullsElems, Json.isNull, hv, hr]
    | arr es2 => rw [h] at hv; simp [scrubElems, h, noNullsElems, Json.isNull, hv, hr]
    | obj ms2 => rw [h] at hv; simp [scrubElems, h, noNullsElems, Json.isNull, hv, hr]

theorem scrubMembers_noNulls : (ms : List (String × Json)) → noNullsMembers (scrubMembers ms) = true
  | [] => rfl
  | (k, v) :: rest => by
    have hv := scrub_noNulls v
    have hr := scrubMembers_noNulls rest
    cases h : scrub_nulls v with
    | null => simpa [scrubMembers, h] using hr
    | bool b => rw [h] at hv; simp [scrubMembers, h, noNullsMembers, Json.isNull, hv, hr]
    | num n => rw [h] at hv; simp [scrubMembers, h, noNullsMembers, Json.isNull, hv, hr]
    | str s => rw [h] at hv; simp [scrubMembers, h, noNullsMembers, Json.isNull, hv, hr]
    | arr es2 => rw [h] at hv; simp [scrubMembers, h, noNullsMembers, Json.isNull, hv, hr]
    | obj ms2 => rw [h] at hv; simp [scrubMembers, h, noNullsMembers, Json.isNull, hv, hr]

end

mutual

theorem noNulls_scrub_eq : (x : Json) → noNulls x = true → scrub_nulls x = x
  | .null => fun _ => rfl
  | .bool _ => fun _ => rfl
  | .num _ => fun _ => rfl
  | .str _ => fun _ => rfl
  | .arr es => fun h => by
    have := noNullsElems_scrub_eq es (by simpa [noNulls] using h)
    simp [scrub_nulls, this]
  | .obj ms => fun h => by
    have := noNullsMembers_scrub_eq ms (by simpa [noNulls] using h)
    simp [scrub_nulls, this]

theorem noNullsElems_scrub_eq : (es : List Json) → noNullsElems es = true → scrubElems es = es
  | [] => fun _ => rfl
  | v :: rest => fun h => by
    simp only [noNullsElems, Bool.and_eq_true] at h
    obtain ⟨⟨h1, h2⟩, h3⟩ := h
    have hv := noNulls_scrub_eq v h2
    have hr := noNullsElems_scrub_eq rest h3
    simp only [scrubElems, hv]
    cases v with
    | null => simp [Json.isNull] at h1
    | bool b => simp [hr]
    | num n => simp [hr]
    | str s => simp [hr]
    | arr es2 => simp [hr]
    | obj ms2 => simp [hr]

theorem noNullsMembers_scrub_eq : (ms : List (String × Json)) → noNullsMembers ms = true → scrubMembers ms = ms
  | [] => fun _ => rfl
  | (k, v) :: rest => fun h => by
    simp only [noNullsMembers, Bool.and_eq_true] at h
    obtain ⟨⟨h1, h2⟩, h3⟩ := h
    have hv := noNulls_scrub_eq v h2
    have hr := noNullsMembers_scrub_eq rest h3
    simp only [scrubMembers, hv]
    cases v with
    | null => simp [Json.isNull] at h1
    | bool b => simp [hr]
    | num n => simp [hr]
    | str s => simp [hr]
    | arr es2 => simp [hr]
    | obj ms2 => simp [hr]

end

theorem scrubElems_eq_filter (es : List Json) :
    scrubElems es = (es.map scrub_nulls).filter (fun s => !s.isNull) := by
  induction es with
  | nil => rfl
  | cons v rest ih =>
    simp only [scrubElems, List.map_cons, List.filter_cons]
    cases h : scrub_nulls v with
    | null => simpa [Json.isNull] using ih
    | bool b => simpa [Json.isNull] using ih
    | num n => simpa [Json.isNull] using ih
    | str s => simpa [Json.isNull] using ih
    | arr es2 => simpa [Json.isNull] using ih
    | obj ms2 => simpa [Json.isNull] using ih

theorem scrubMembers_eq_filter (ms : List (String × Json)) :
    scrubMembers ms = (ms.map (fun kv => (kv.1, scrub_nulls kv.2))).filter
      (fun kv => !kv.2.isNull) := by
  induction ms with
  | nil => rfl
  | cons kv rest ih =>
    obtain ⟨k, v⟩ := kv
    simp only [scrubMembers, List.map_cons, List.filter_cons]
    cases h : scrub_nulls v with
    | null => simpa [Json.isNull] using ih
    | bool b => simpa [Json.isNull] using ih
    | num n => simpa [Json.isNull] using ih
    | str s => simpa [Json.isNull] using ih
    | arr es2 => simpa [Json.isNull] using ih
    | obj ms2 => simpa [Json.isNull] using ih

theorem scrub_isNull (x : Json) : (scrub_nulls x).isNull = x.isNull := by
  cases x <;> simp [scrub_nulls, Json.isNull]

/-- Claim C8: `scrub_nulls(x)` removes exactly the JSON-null leaves of
`x`, recursively through objects and arrays (a null object member is
deleted, a null array element is removed); for every `x` that is not
null, not an object and not an array, `scrub_nulls(x) = x`.
Conjuncts: (i) scalar identity; (ii) the result has no null member or
element at any depth; (iii) inputs without null members or elements
are returned unchanged, so nothing but nulls is removed; (iv) only a
null input scrubs to null; (v)/(vi) on arrays and objects the function
is exactly the recursive scrub followed by dropping the null
entries. -/
theorem claim_C8 :
    (∀ x : Json, x.isNull = false → x.isObject = false → x.isArray = false →
        scrub_nulls x = x)
    ∧ (∀ x : Json, noNulls (scrub_nulls x) = true)
    ∧ (∀ x : Json, noNulls x = true → scrub_nulls x = x)
    ∧ (∀ x : Json, (scrub_nulls x).isNull = x.isNull)
    ∧ (∀ es : List Json,
        scrub_nulls (Json.arr es)
          = Json.arr ((es.map scrub_nulls).filter (fun s => !s.isNull)))
    ∧ (∀ ms : List (String × Json),
        scrub_nulls (Json.obj ms)
          = Json.obj ((ms.map (fun kv => (kv.1, scrub_nulls kv.2))).filter
              (fun kv => !kv.2.isNull))) := by
  refine ⟨?_, scrub_noNulls, noNulls_scrub_eq, scrub_isNull, ?_, ?_⟩
  · intro x h1 h2 h3
    cases x with
    | null => simp [Json.isNull] at h1
    | bool b => rfl
    | num n => rfl
    | str s => rfl
    | arr es => simp [Json.isArray] at h3
    | obj ms => simp [Json.isObject] at h2
  · intro es
    simp [scrub_nulls, scrubElems_eq_filter]
  · intro ms
    simp [scrub_nulls, scrubMembers_eq_filter]

/-- Witness for C8 at concrete inputs. -/
theorem claim_C8_witness :
    scrub_nulls (Json.num 3) = Json.num 3 ∧
    scrub_nulls (Json.arr [Json.num 1, Json.str "s"])
      = Json.arr [Json.num 1, Json.str "s"] :=
  ⟨claim_C8.1 (Json.num 3) rfl rfl rfl,
   claim_C8.2.2.1 (Json.arr [Json.num 1, Json.str "s"]) rfl⟩

theorem eg_partial_chunk_step (unpack : Json → Json)
    (jparse : String → Except String Json) (format : GatewayRequestFormat)
    (st : EgExtractSt) (h : st.err = none) (c : String) :
    egProcessResp unpack jparse format st (resultMsg .msPartialChunk (.str c))
      = { st with partial_buffer := some (st.partial_buffer.getD "" ++ c) } := by
  simp [egProcessResp, h, resultMsg, Json.asStr]

theorem eg_c1_aux (unpack : Json → Json) (jparse : String → Except String Json)
    (format : GatewayRequestFormat) (final : Option String) (v : Json) :
    ∀ (cs : List String) (b : Option String),
      jparse (b.getD "" ++ (strConcat cs ++ final.getD "")) = .ok v →
      extract_responses unpack jparse format ⟨b, [], false, none⟩
        ((cs.map fun c => resultMsg .msPartialChunk (.str c))
          ++ [resultMsg .msPartialComplete (finalJson final)])
      = ⟨none, [egApplyFormat unpack format v], false, none⟩
  | [], b => fun hp => by
    rw [strConcat, String.empty_append] at hp
    cases final with
    | some f =>
      simp only [Option.getD_some] at hp
      simp [extract_responses, egProcessResp, resultMsg, finalJson, Json.asStr, hp]
    | none =>
      rw [Option.getD_none, String.append_empty] at hp
      simp [extract_responses, egProcessResp, resultMsg, finalJson, Json.asStr, hp]
  | c :: rest, b => fun hp => by
    rw [List.map_cons, List.cons_append, extract_responses, List.foldl_cons,
      eg_partial_chunk_step unpack jparse format _ rfl c]
    exact eg_c1_aux unpack jparse format final v rest (some (b.getD "" ++ c))
      (by
        simp only [Option.getD_some]
        rw [String.append_assoc, ← String.append_assoc c]
        exact hp)

/-- Claim C1: for every sequence of Partial results carrying string
chunks followed by one PartialComplete (with optional final chunk),
`extract_responses` concatenates the chunks in arrival order, parses
the concatenation as JSON, and delivers exactly one reply equal to
what a single non-partial Result with the parsed content would have
produced; the buffer ends cleared, no error and no completion flag is
raised.  Stated over the message-level fold that `extract_responses`
performs, so it covers any split of the sequence across transport
messages. -/
theorem claim_C1 (unpack : Json → Json) (jparse : String → Except String Json)
    (format : GatewayRequestFormat) (cs : List String) (final : Option String)
    (v : Json) (hp : jparse (strConcat cs ++ final.getD "") = .ok v) :
    extract_responses unpack jparse format ⟨none, [], false, none⟩
        ((cs.map fun c => resultMsg .msPartialChunk (.str c))
          ++ [resultMsg .msPartialComplete (finalJson final)])
      = ⟨none, [egApplyFormat unpack format v], false, none⟩
    ∧ extract_responses unpack jparse format ⟨none, [], false, none⟩
        [resultMsg .msOk v]
      = ⟨none, [egApplyFormat unpack format v], false, none⟩ := by
  constructor
  · exact eg_c1_aux unpack jparse format final v cs none
      (by rwa [Option.getD_none, String.empty_append])
  · simp [extract_responses, egProcessResp, resultMsg]

/-- Witness for C1: the chunks of scenario E2 reassemble to the
object value and match the single-result delivery. -/
theorem claim_C1_witness :
    extract_responses jid cjpC1 .fieldmapper ⟨none, [], false, none⟩
        ((["\x7b\"a\":", "1"].map fun c => resultMsg .msPartialChunk (.str c))
          ++ [resultMsg .msPartialComplete (finalJson (some "\x7d"))])
      = ⟨none, [egApplyFormat jid .fieldmapper (Json.obj [("a", Json.num 1)])], false, none⟩
    ∧ extract_responses jid cjpC1 .fieldmapper ⟨none, [], false, none⟩
        [resultMsg .msOk (Json.obj [("a", Json.num 1)])]
      = ⟨none, [egApplyFormat jid .fieldmapper (Json.obj [("a", Json.num 1)])], false, none⟩ :=
  claim_C1 jid cjpC1 .fieldmapper ["\x7b\"a\":", "1"] (some "\x7d")
    (Json.obj [("a", Json.num 1)]) (by rfl)

/-- Counterexample to C2 as stated: a Result with status Ok (neither
Partial nor PartialComplete) is delivered while the session's partial
buffer, here holding "A", is left untouched rather than cleared. -/
theorem claim_C2_counterexample :
    (extract_responses jid jparseNone .fieldmapper ⟨some "A", [], false, none⟩
        [resultMsg .msOk (Json.num 1)]).partial_buffer = some "A"
    ∧ (extract_responses jid jparseNone .fieldmapper ⟨some "A", [], false, none⟩
        [resultMsg .msOk (Json.num 1)]).replies = [Json.num 1]
    ∧ (extract_responses jid jparseNone .fieldmapper ⟨some "A", [], false, none⟩
        [resultMsg .msOk (Json.num 1)]).partial_buffer ≠ none := by
  refine ⟨rfl, rfl, ?_⟩
  simp [extract_responses, egProcessResp, resultMsg]

/-- Claim C2 (amended): processing a Result whose status is neither
Partial nor PartialComplete delivers its content value but leaves the
partial buffer unchanged; the buffer is cleared exactly by processing
a PartialComplete (which always takes it, whether or not the re-parse
succeeds). -/
theorem claim_C2_amended (unpack : Json → Json)
    (jparse : String → Except String Json) (format : GatewayRequestFormat)
    (st : EgExtractSt) (h : st.err = none) (rstatus : MessageStatus)
    (content : Json) (h1 : rstatus ≠ .msPartialChunk)
    (h2 : rstatus ≠ .msPartialComplete) :
    (egProcessResp unpack jparse format st (resultMsg rstatus content)).partial_buffer
        = st.partial_buffer
    ∧ (egProcessResp unpack jparse format st (resultMsg rstatus content)).replies
        = st.replies ++ [egApplyFormat unpack format content]
    ∧ ∀ c2 : Json,
        (egProcessResp unpack jparse format st
          (resultMsg .msPartialComplete c2)).partial_buffer = none := by
  refine ⟨?_, ?_, ?_⟩
  · simp [egProcessResp, resultMsg, h, h1, h2]
  · simp [egProcessResp, resultMsg, h, h1, h2]
  · intro c2
    cases c2 with
    | null =>
      cases hj : jparse (st.partial_buffer.getD "") <;>
        simp [egProcessResp, resultMsg, h, Json.asStr, hj]
    | bool b =>
      cases hj : jparse (st.partial_buffer.getD "") <;>
        simp [egProcessResp, resultMsg, h, Json.asStr, hj]
    | num n =>
      cases hj : jparse (st.partial_buffer.getD "") <;>
        simp [egProcessResp, resultMsg, h, Json.asStr, hj]
    | str s =>
      cases hj : jparse (st.partial_buffer.getD "" ++ s) <;>
        simp [egProcessResp, resultMsg, h, Json.asStr, hj]
    | arr es =>
      cases hj : jparse (st.partial_buffer.getD "") <;>
        simp [egProcessResp, resultMsg, h, Json.asStr, hj]
    | obj ms =>
      cases hj : jparse (st.partial_buffer.getD "") <;>
        simp [egProcessResp, resultMsg, h, Json.asStr, hj]

/-- Witness for the amended C2 at concrete inputs. -/
theorem claim_C2_amended_witness :
    (egProcessResp jid jparseNone .fieldmapper ⟨some "A", [], false, none⟩
        (resultMsg .msOk (Json.num 1))).partial_buffer = some "A"
    ∧ (egProcessResp jid jparseNone .fieldmapper ⟨some "A", [], false, none⟩
        (resultMsg .msOk (Json.num 1))).replies = [Json.num 1]
    ∧ (egProcessResp jid jparseNone .fieldmapper ⟨some "A", [], false, none⟩
        (resultMsg .msPartialComplete Json.null)).partial_buffer = none :=
  ⟨(claim_C2_amended jid jparseNone .fieldmapper ⟨some "A", [], false, none⟩ rfl
      .msOk (Json.num 1) (by decide) (by decide)).1,
   (claim_C2_amended jid jparseNone .fieldmapper ⟨some "A", [], false, none⟩ rfl
      .msOk (Json.num 1) (by decide) (by decide)).2.1,
   (claim_C2_amended jid jparseNone .fieldmapper ⟨some "A", [], false, none⟩ rfl
      .msOk (Json.num 1) (by decide) (by decide)).2.2 Json.null⟩

/-- Counterexample to C5 as stated: a relay that receives one Ok
result and then times out responds 200 with body ["Hello"], not with
an empty JSON array. -/
theorem claim_C5_counterexample :
    (handle_request_gw jdump jid jparseNone .fieldmapper "GET" none
        [.msg (tmOf [resultMsg .msOk (.str "Hello")])]).1.leader = "HTTP/1.1 200 OK"
    ∧ (handle_request_gw jdump jid jparseNone .fieldmapper "GET" none
        [.msg (tmOf [resultMsg .msOk (.str "Hello")])]).1.body = "[\"Hello\"]"
    ∧ (handle_request_gw jdump jid jparseNone .fieldmapper "GET" none
        [.msg (tmOf [resultMsg .msOk (.str "Hello")])]).1.body ≠ "[]" := by
  refine ⟨rfl, rfl, by decide⟩

/-- Claim C5 (amended): any error during the bus relay (a bus-level
failure or a received status at or above BadRequest) produces one 400
response whose body is the JSON array holding the single error value
(the relay is invoked exactly once by `handle_request_gw`, so it is
not retried); when the relay ends without error the response is 200
with the array of all replies received before completion or timeout
-- in particular the empty array when the first recv times out. -/
theorem claim_C5_amended (dump : Json → String) (unpack : Json → Json)
    (jparse : String → Except String Json) (format : GatewayRequestFormat)
    (buf : Option String) (events : List RecvEvent) (m : String)
    (hm : m = "GET" ∨ m = "POST") :
    (∀ e buf2, relay_to_osrf_gw unpack jparse format buf events = (.error e, buf2) →
      (handle_request_gw dump unpack jparse format m buf events).1
        = ⟨"HTTP/1.1 400 Bad Request", some HTTP_CONTENT_TYPE,
            some (dump (Json.arr [e])).utf8ByteSize, dump (Json.arr [e])⟩)
    ∧ (∀ replies buf2,
        relay_to_osrf_gw unpack jparse format buf events = (.ok replies, buf2) →
        (handle_request_gw dump unpack jparse format m buf events).1
          = ⟨"HTTP/1.1 200 OK", some HTTP_CONTENT_TYPE,
              some (dump (Json.arr replies)).utf8ByteSize, dump (Json.arr replies)⟩)
    ∧ (relay_to_osrf_gw unpack jparse format buf [] = (.ok [], buf)
        ∧ (handle_request_gw dump unpack jparse format m buf []).1.body
            = dump (Json.arr [])) := by
  have hmh : m ≠ "HEAD" := by rcases hm with rfl | rfl <;> decide
  refine ⟨?_, ?_, rfl, ?_⟩
  · intro e buf2 hrel
    simp [handle_request_gw, hrel, gwBuildResponse, hmh, hm]
  · intro replies buf2 hrel
    simp [handle_request_gw, hrel, gwBuildResponse, hmh, hm]
  · simp [handle_request_gw, relay_to_osrf_gw, gwRelayLoop, gwBuildResponse, hmh, hm]

/-- Witness for the amended C5: a bus error becomes one 400 response
whose body is the singleton array of the error value. -/
theorem claim_C5_amended_witness :
    (handle_request_gw jdump jid jparseNone .fieldmapper "GET" none
        [.busErr "boom"]).1
      = ⟨"HTTP/1.1 400 Bad Request", some HTTP_CONTENT_TYPE,
          some (jdump (Json.arr [Json.str "boom"])).utf8ByteSize,
          jdump (Json.arr [Json.str "boom"])⟩ :=
  (claim_C5_amended jdump jid jparseNone .fieldmapper none [.busErr "boom"] "GET"
    (Or.inl rfl)).1 (Json.str "boom") none rfl

/-- Claim C6: for every handled request the Content-Length header
equals the byte length of the serialized JSON array body; a HEAD
request yields the same status line and headers as the equivalent GET
but an empty body (its Content-Length names the GET body's length);
any other method than GET, POST, HEAD yields a bare 405 Method Not
Allowed response. -/
theorem claim_C6 (dump : Json → String) (unpack : Json → Json)
    (jparse : String → Except String Json) (format : GatewayRequestFormat)
    (buf : Option String) (events : List RecvEvent) :
    (∀ m, m = "GET" ∨ m = "POST" →
      (handle_request_gw dump unpack jparse format m buf events).1.contentLength
        = some (handle_request_gw dump unpack jparse format m buf
            events).1.body.utf8ByteSize)
    ∧ ((handle_request_gw dump unpack jparse format "HEAD" buf events).1.leader
        = (handle_request_gw dump unpack jparse format "GET" buf events).1.leader
      ∧ (handle_request_gw dump unpack jparse format "HEAD" buf events).1.contentType
        = (handle_request_gw dump unpack jparse format "GET" buf events).1.contentType
      ∧ (handle_request_gw dump unpack jparse format "HEAD" buf events).1.contentLength
        = (handle_request_gw dump unpack jparse format "GET" buf events).1.contentLength
      ∧ (handle_request_gw dump unpack jparse format "HEAD" buf events).1.body = "")
    ∧ (∀ m, m ≠ "GET" → m ≠ "POST" → m ≠ "HEAD" →
      (handle_request_gw dump unpack jparse format m buf events).1
        = ⟨"HTTP/1.1 405 Method Not Allowed", none, none, ""⟩) := by
  rcases hr : relay_to_osrf_gw unpack jparse format buf events with ⟨r1, r2⟩
  refine ⟨?_, ?_, ?_⟩
  · intro m hm
    have hmh : m ≠ "HEAD" := by rcases hm with rfl | rfl <;> decide
    cases r1 <;> simp [handle_request_gw, hr, gwBuildResponse, hmh, hm]
  · cases r1 <;> simp [handle_request_gw, hr, gwBuildResponse]
  · intro m h1 h2 h3
    cases r1 <;> simp [handle_request_gw, hr, gwBuildResponse, h1, h2, h3]

/-- Witness for C6 at concrete inputs. -/
theorem claim_C6_witness :
    (handle_request_gw jdump jid jparseNone .fieldmapper "GET" none []).1.contentLength
      = some ((handle_request_gw jdump jid jparseNone .fieldmapper "GET" none
          []).1.body.utf8ByteSize)
    ∧ (handle_request_gw jdump jid jparseNone .fieldmapper "HEAD" none []).1.body = ""
    ∧ (handle_request_gw jdump jid jparseNone .fieldmapper "PUT" none []).1
        = ⟨"HTTP/1.1 405 Method Not Allowed", none, none, ""⟩ :=
  ⟨(claim_C6 jdump jid jparseNone .fieldmapper none []).1 "GET" (Or.inl rfl),
   (claim_C6 jdump jid jparseNone .fieldmapper none []).2.1.2.2.2,
   (claim_C6 jdump jid jparseNone .fieldmapper none []).2.2 "PUT"
     (by decide) (by decide) (by decide)⟩

theorem gw_partials_relay (unpack : Json → Json)
    (jparse : String → Except String Json) (format : GatewayRequestFormat) :
    ∀ (cs : List String) (b : String) (replies : List Json)
      (rest : List RecvEvent),
      gwRelayLoop unpack jparse format (some b) replies
        ((cs.map fun c => RecvEvent.msg (tmOf [resultMsg .msPartialChunk (.str c)]))
          ++ rest)
      = gwRelayLoop unpack jparse format (some (b ++ strConcat cs)) replies rest
  | [], b, replies, rest => by
    rw [List.map_nil, List.nil_append, strConcat, String.append_empty]
  | c :: cs', b, replies, rest => by
    have hx : extract_responses unpack jparse format ⟨some b, replies, false, none⟩
        (tmOf [resultMsg .msPartialChunk (.str c)]).body
        = ⟨some (b ++ c), replies, false, none⟩ := by
      rw [tmOf, extract_responses, List.foldl_cons, List.foldl_nil,
        eg_partial_chunk_step unpack jparse format _ rfl c]
      rfl
    rw [List.map_cons, List.cons_append]
    simp only [gwRelayLoop, hx]
    rw [gw_partials_relay unpack jparse format cs' (b ++ c) replies rest,
      strConcat, ← String.append_assoc]
    simp only [Bool.false_eq_true, if_false]

/-- Claim C10: the partial-reassembly buffer is per-worker state that
survives request boundaries.  (a) A relay that buffers Partial chunks
and then times out returns with the buffer still holding the
concatenated chunks; (b) `handle_request_gw` hands that buffer back
unchanged, so it is what the worker starts the next request with;
(c) the same holds when the relay instead ends with an error status;
(d) a later PartialComplete starting from a leftover buffer parses the
leftover prepended to its own chunk. -/
theorem claim_C10 (dump : Json → String) (unpack : Json → Json)
    (jparse : String → Except String Json) (format : GatewayRequestFormat)
    (m : String) (c0 : String) (cs : List String) (B d : String) (v : Json) :
    (relay_to_osrf_gw unpack jparse format none
        ((c0 :: cs).map fun c => RecvEvent.msg (tmOf [resultMsg .msPartialChunk (.str c)]))
      = (.ok [], some (strConcat (c0 :: cs))))
    ∧ ((handle_request_gw dump unpack jparse format m none
        ((c0 :: cs).map fun c => RecvEvent.msg (tmOf [resultMsg .msPartialChunk (.str c)]))).2
      = some (strConcat (c0 :: cs)))
    ∧ (relay_to_osrf_gw unpack jparse format none
        (((c0 :: cs).map fun c => RecvEvent.msg (tmOf [resultMsg .msPartialChunk (.str c)]))
          ++ [RecvEvent.msg (tmOf [statusMsg .msBadRequest])])
      = (.error (statusToJson .msBadRequest), some (strConcat (c0 :: cs))))
    ∧ (jparse (B ++ d) = .ok v →
      extract_responses unpack jparse format ⟨some B, [], false, none⟩
          [resultMsg .msPartialComplete (.str d)]
        = ⟨none, [egApplyFormat unpack format v], false, none⟩) := by
  have hx0 : extract_responses unpack jparse format ⟨none, [], false, none⟩
      (tmOf [resultMsg .msPartialChunk (.str c0)]).body
      = ⟨some c0, [], false, none⟩ := by
    rw [tmOf, extract_responses, List.foldl_cons, List.foldl_nil,
      eg_partial_chunk_step unpack jparse format _ rfl c0]
    simp [String.empty_append]
  have ha : relay_to_osrf_gw unpack jparse format none
      ((c0 :: cs).map fun c => RecvEvent.msg (tmOf [resultMsg .msPartialChunk (.str c)]))
      = (.ok [], some (strConcat (c0 :: cs))) := by
    rw [relay_to_osrf_gw, List.map_cons]
    simp only [gwRelayLoop, hx0, Bool.false_eq_true, if_false]
    have hrec := gw_partials_relay unpack jparse format cs c0 [] []
    rw [List.append_nil] at hrec
    rw [hrec]
    rfl
  refine ⟨ha, ?_, ?_, ?_⟩
  · show (relay_to_osrf_gw unpack jparse format none
      ((c0 :: cs).map fun c => RecvEvent.msg (tmOf [resultMsg .msPartialChunk (.str c)]))).2 = _
    rw [ha]
  · rw [relay_to_osrf_gw, List.map_cons, List.cons_append]
    simp only [gwRelayLoop, hx0, Bool.false_eq_true, if_false]
    rw [gw_partials_relay unpack jparse format cs c0 []
      [RecvEvent.msg (tmOf [statusMsg .msBadRequest])]]
    have hbad : extract_responses unpack jparse format
        ⟨some (c0 ++ strConcat cs), [], false, none⟩
        (tmOf [statusMsg .msBadRequest]).body
        = ⟨some (c0 ++ strConcat cs), [], false, some (statusToJson .msBadRequest)⟩ := by
      simp [tmOf, extract_responses, egProcessResp, statusMsg]
    simp only [gwRelayLoop, hbad]
    rfl
  · intro hp
    have := eg_c1_aux unpack jparse format (some d) v [] (some B)
      (by simpa [strConcat, String.empty_append] using hp)
    simpa [finalJson] using this

/-- Witness for C10: two chunks survive a timed-out relay and a later
PartialComplete assembles leftover ++ final chunk. -/
theorem claim_C10_witness :
    relay_to_osrf_gw jid cjpC1 .fieldmapper none
        ((["\x7b\"a\":", "1"]).map fun c =>
          RecvEvent.msg (tmOf [resultMsg .msPartialChunk (.str c)]))
      = (.ok [], some (strConcat ["\x7b\"a\":", "1"]))
    ∧ extract_responses jid cjpC1 .fieldmapper ⟨some "\x7b\"a\":1", [], false, none⟩
        [resultMsg .msPartialComplete (.str "\x7d")]
      = ⟨none, [egApplyFormat jid .fieldmapper (Json.obj [("a", Json.num 1)])],
          false, none⟩ :=
  ⟨(claim_C10 jdump jid cjpC1 .fieldmapper "GET" "\x7b\"a\":" ["1"] "\x7b\"a\":1"
      "\x7d" (Json.obj [("a", Json.num 1)])).1,
   (claim_C10 jdump jid cjpC1 .fieldmapper "GET" "\x7b\"a\":" ["1"] "\x7b\"a\":1"
      "\x7d" (Json.obj [("a", Json.num 1)])).2.2.2 (by rfl)⟩

/-- Claim C7: for every Text frame, a frame of at least
MAX_MESSAGE_SIZE bytes is dropped, a frame arriving while the backlog
holds at least MAX_BACKLOG_SIZE entries is dropped, and otherwise the
frame is appended to the request queue; in all three cases (and for a
Ping, which is answered with a Pong) `handle_inbound_message` reports
the connection as staying open, so later frames keep being served. -/
theorem claim_C7 (queue : List String) (t : String) :
    (t.utf8ByteSize ≥ MAX_MESSAGE_SIZE →
      handle_inbound_message_ws queue (.text t) = (queue, [], false))
    ∧ (t.utf8ByteSize < MAX_MESSAGE_SIZE → queue.length ≥ MAX_BACKLOG_SIZE →
      handle_inbound_message_ws queue (.text t) = (queue, [], false))
    ∧ (t.utf8ByteSize < MAX_MESSAGE_SIZE → queue.length < MAX_BACKLOG_SIZE →
      handle_inbound_message_ws queue (.text t) = (queue ++ [t], [], false))
    ∧ (∀ p, handle_inbound_message_ws queue (.ping p) = (queue, [.pong p], false)) := by
  refine ⟨?_, ?_, ?_, fun p => rfl⟩
  · intro h
    simp [handle_inbound_message_ws, h]
  · intro h1 h2
    simp [handle_inbound_message_ws, Nat.not_le.mpr h1, h2]
  · intro h1 h2
    simp [handle_inbound_message_ws, Nat.not_le.mpr h1, Nat.not_le.mpr h2]

/-- Witness for C7: a small frame is appended with the queue below
the backlog cap, a frame meeting a full backlog is dropped, and Ping
yields Pong. -/
theorem claim_C7_witness :
    handle_inbound_message_ws [] (.text "x") = ([] ++ ["x"], [], false)
    ∧ handle_inbound_message_ws (List.replicate 1000 "q") (.text "x")
        = (List.replicate 1000 "q", [], false)
    ∧ handle_inbound_message_ws [] (.ping "p") = ([], [.pong "p"], false) :=
  ⟨(claim_C7 [] "x").2.2.1 (by decide) (by decide),
   (claim_C7 (List.replicate 1000 "q") "x").2.1 (by decide)
     (by rw [List.length_replicate]; decide),
   (claim_C7 [] "x").2.2.2 "p"⟩

/-- Claim C9: on an error-free tick the bus watcher walks every
enumerated `opensrf:*` key in order and calls `set_key_timeout` with
the configured TTL exactly for the keys whose reported ttl is -1; all
other keys are left untouched; the configured TTL defaults to
`DEFAULT_KEY_EXPIRE_SECS = 1800` and the polling interval to
`DEFAULT_WAIT_TIME = 60` seconds. -/
theorem claim_C9 (ttlConf : Nat) (keys : List BusKeySt) :
    buswatchPass ttlConf keys
      = (keys.filter (fun k => k.ttl = -1)).map (fun k => (k.name, ttlConf))
    ∧ (∀ e ∈ buswatchPass ttlConf keys, e.2 = ttlConf)
    ∧ DEFAULT_KEY_EXPIRE_SECS = 1800
    ∧ DEFAULT_WAIT_TIME = 60 := by
  have hfil : buswatchPass ttlConf keys
      = (keys.filter (fun k => k.ttl = -1)).map (fun k => (k.name, ttlConf)) := by
    induction keys with
    | nil => rfl
    | cons k ks ih =>
      by_cases h : k.ttl = -1 <;>
        simp [buswatchPass, List.filter_cons, h] <;>
        simpa [buswatchPass] using ih
  refine ⟨hfil, ?_, rfl, rfl⟩
  intro e he
  rw [hfil] at he
  obtain ⟨k, hk, rfl⟩ := List.mem_map.mp he
  rfl

/-- Witness for C9: scenario E6 — `opensrf:a` with ttl -1 gets the
default 1800-second timeout, `opensrf:b` with ttl 42 is untouched. -/
theorem claim_C9_witness :
    buswatchPass DEFAULT_KEY_EXPIRE_SECS
        [⟨"opensrf:a", 1, -1⟩, ⟨"opensrf:b", 2, 42⟩]
      = [("opensrf:a", 1800)]
    ∧ ("opensrf:a", (1800 : Nat)).2 = DEFAULT_KEY_EXPIRE_SECS :=
  ⟨by decide,
   (claim_C9 DEFAULT_KEY_EXPIRE_SECS
      [⟨"opensrf:a", 1, -1⟩, ⟨"opensrf:b", 2, 42⟩]).2.1
     ("opensrf:a", 1800) (by decide)⟩

theorem alGet_alPut (l : List (String × String)) (k v : String) :
    alGet (alPut l k v) k = some v := by
  simp [alGet, alPut, List.find?_cons]

theorem alGet_alDel (l : List (String × String)) (k : String) :
    alGet (alDel l k) k = none := by
  rw [alGet, List.find?_eq_none.mpr]
  · rfl
  intro p hp
  rw [alDel, List.mem_filter] at hp
  simpa using hp.2

theorem wsBuildBody_spec (mfj : Json → Option Message) (th : String) :
    ∀ (msgs : List Json) (core core2 : WsCore) (body : List Message),
      wsBuildBody mfj th core msgs = .ok (core2, body) →
      core2.senderAddr = core.senderAddr
      ∧ core2.senderDomain = core.senderDomain
      ∧ core2.reqs_in_flight = core.reqs_in_flight + crCountList mfj msgs
  | [], core, core2, body => fun h => by
    rw [wsBuildBody] at h
    simp only [Except.ok.injEq, Prod.mk.injEq] at h
    obtain ⟨h1, -⟩ := h
    subst h1
    simp [crCountList]
  | j :: rest, core, core2, body => fun h => by
    rw [wsBuildBody] at h
    by_cases hn : j.isNull = true
    · rw [if_pos hn] at h
      simp only [Except.ok.injEq, Prod.mk.injEq] at h
      obtain ⟨h1, -⟩ := h
      subst h1
      simp [crCountList, hn]
    · rw [if_neg hn] at h
      cases hm : mfj j with
      | none => simp [hm] at h
      | some m =>
        simp only [hm] at h
        cases hmt : m.mtype with
        | connect =>
          simp only [hmt] at h
          cases hrec : wsBuildBody mfj th
              { core with reqs_in_flight := core.reqs_in_flight + 1 } rest with
          | error e => rw [hrec] at h; exact absurd h (by simp)
          | ok p =>
            obtain ⟨c3, ms⟩ := p
            rw [hrec] at h
            simp only [Except.ok.injEq, Prod.mk.injEq] at h
            obtain ⟨h1, -⟩ := h
            subst h1
            have ih := wsBuildBody_spec mfj th rest _ _ _ hrec
            refine ⟨ih.1, ih.2.1, ?_⟩
            rw [ih.2.2]
            simp [crCountList, hn, hm, isCR, hmt]
            omega
        | request =>
          simp only [hmt] at h
          cases hp : m.payload with
          | method name params =>
            simp only [hp] at h
            cases hrec : wsBuildBody mfj th
                { core with reqs_in_flight := core.reqs_in_flight + 1 } rest with
            | error e => rw [hrec] at h; exact absurd h (by simp)
            | ok p =>
              obtain ⟨c3, ms⟩ := p
              rw [hrec] at h
              simp only [Except.ok.injEq, Prod.mk.injEq] at h
              obtain ⟨h1, -⟩ := h
              subst h1
              have ih := wsBuildBody_spec mfj th rest _ _ _ hrec
              refine ⟨ih.1, ih.2.1, ?_⟩
              rw [ih.2.2]
              simp [crCountList, hn, hm, isCR, hmt]
              omega
          | result rstatus content => simp [hp] at h
          | status st => simp [hp] at h
          | noPayload => simp [hp] at h
        | disconnect =>
          simp only [hmt] at h
          cases hrec : wsBuildBody mfj th
              { core with osrf_sessions := alDel core.osrf_sessions th } rest with
          | error e => rw [hrec] at h; exact absurd h (by simp)
          | ok p =>
            obtain ⟨c3, ms⟩ := p
            rw [hrec] at h
            simp only [Except.ok.injEq, Prod.mk.injEq] at h
            obtain ⟨h1, -⟩ := h
            subst h1
            have ih := wsBuildBody_spec mfj th rest _ _ _ hrec
            refine ⟨ih.1, ih.2.1, ?_⟩
            rw [ih.2.2]
            simp [crCountList, hn, hm, isCR, hmt]
        | result => simp [hmt] at h
        | status => simp [hmt] at h

/-- Claim C4: websocket session stickiness.  (i) With a cached peer
for the thread, the transport message is sent directly to the cached
address (one send, queue = recipient = peer). (ii) Without a cache
entry, the message is addressed to `ServiceAddress(service)` and
pushed onto the queue `RouterAddress(sender.domain)`. (iii) A
`Status(Ok)` on the outbound path caches thread -> reply's from
address. (iv) A client Disconnect removes the thread's entry. (v) A
terminal (>= BadRequest) status removes the entry and flags
`transport_error`. -/
theorem claim_C4 (jparse : String → Except String Json)
    (mfj : Json → Option Message) (mkxid : String) :
    (∀ (core : WsCore) (text : String) (w : Json) (th sv addr : String)
        (core2 : WsCore) (body : List Message),
      jparse text = .ok w →
      (w.get "thread").asStr = some th →
      th.utf8ByteSize ≤ MAX_THREAD_SIZE →
      (w.get "service").asStr = some sv →
      alGet core.osrf_sessions th = some addr →
      wsBuildBody mfj th core (wsMsgList w) = .ok (core2, body) →
      relay_to_osrf_ws jparse mfj mkxid core text
        = .ok (core2, [⟨addr, ⟨addr, core.senderAddr, th,
            ((w.get "log_xid").asStr).getD mkxid, body⟩⟩]))
    ∧ (∀ (core : WsCore) (text : String) (w : Json) (th sv : String)
        (core2 : WsCore) (body : List Message),
      jparse text = .ok w →
      (w.get "thread").asStr = some th →
      th.utf8ByteSize ≤ MAX_THREAD_SIZE →
      (w.get "service").asStr = some sv →
      alGet core.osrf_sessions th = none →
      wsBuildBody mfj th core (wsMsgList w) = .ok (core2, body) →
      relay_to_osrf_ws jparse mfj mkxid core text
        = .ok (core2, [⟨routerAddress core.senderDomain,
            ⟨serviceAddress sv, core.senderAddr, th,
              ((w.get "log_xid").asStr).getD mkxid, body⟩⟩]))
    ∧ (∀ (core : WsCore) (tm : TransportMessage), tm.body = [statusMsg .msOk] →
      alGet (relay_to_websocket_ws core tm).1.osrf_sessions tm.thread
        = some tm.fromAddr)
    ∧ (∀ (core : WsCore) (th : String) (jd : Json) (m : Message),
      jd.isNull = false → mfj jd = some m → m.mtype = .disconnect →
      wsBuildBody mfj th core [jd]
        = .ok ({ core with osrf_sessions := alDel core.osrf_sessions th },
            [{ m with ingress := WEBSOCKET_INGRESS }])
      ∧ alGet (alDel core.osrf_sessions th) th = none)
    ∧ (∀ (core : WsCore) (tm : TransportMessage) (st : MessageStatus),
      tm.body = [statusMsg st] → statusCode st ≥ statusCode .msBadRequest →
      alGet (relay_to_websocket_ws core tm).1.osrf_sessions tm.thread = none
      ∧ (relay_to_websocket_ws core tm).2.transport_error = true) := by
  refine ⟨?_, ?_, ?_, ?_, ?_⟩
  · intro core text w th sv addr core2 body hjp hth hle hsv hget hbb
    simp [relay_to_osrf_ws, hjp, hth, hsv, hget, hbb, Nat.not_lt.mpr hle]
    exact (wsBuildBody_spec mfj th _ _ _ _ hbb).1
  · intro core text w th sv core2 body hjp hth hle hsv hget hbb
    simp [relay_to_osrf_ws, hjp, hth, hsv, hget, hbb, Nat.not_lt.mpr hle]
    exact (wsBuildBody_spec mfj th _ _ _ _ hbb).1
  · intro core tm hb
    rw [relay_to_websocket_ws, hb]
    simp [wsStatusStep, statusMsg, alGet_alPut]
  · intro core th jd m hnull hmfj hmt
    constructor
    · simp [wsBuildBody, hnull, hmfj, hmt]
    · exact alGet_alDel core.osrf_sessions th
  · intro core tm st hb h400
    have h1 : st ≠ .msOk := fun he => by subst he; exact absurd h400 (by decide)
    have h2 : st ≠ .msComplete := fun he => by
      subst he; exact absurd h400 (by decide)
    rw [relay_to_websocket_ws, hb]
    constructor
    · simp [wsStatusStep, statusMsg, h1, h2, h400, alGet_alDel]
    · simp [wsStatusStep, statusMsg, h1, h2, h400]

/-- Witness for C4: a cached thread routes straight to the cached
worker address, and a Status(Ok) reply caches thread to sender. -/
theorem claim_C4_witness :
    relay_to_osrf_ws cjpWs cmfjWs "x0" ⟨[("T", "workerW")], 0, "addr", "dom"⟩ "s"
      = .ok (⟨[("T", "workerW")], 1, "addr", "dom"⟩,
          [⟨"workerW", ⟨"workerW", "addr", "T",
            ((frameS.get "log_xid").asStr).getD "x0",
            [⟨.request, .method "m" [], WEBSOCKET_INGRESS⟩]⟩⟩])
    ∧ alGet (relay_to_websocket_ws ⟨[], 0, "addr", "dom"⟩
        ⟨"addr", "workerW", "T", "x", [statusMsg .msOk]⟩).1.osrf_sessions "T"
      = some "workerW" :=
  ⟨(claim_C4 cjpWs cmfjWs "x0").1 ⟨[("T", "workerW")], 0, "addr", "dom"⟩ "s" frameS
      "T" "svc" "workerW" ⟨[("T", "workerW")], 1, "addr", "dom"⟩
      [⟨.request, .method "m" [], WEBSOCKET_INGRESS⟩]
      rfl rfl (by decide) rfl rfl rfl,
   (claim_C4 cjpWs cmfjWs "x0").2.2.1 ⟨[], 0, "addr", "dom"⟩
      ⟨"addr", "workerW", "T", "x", [statusMsg .msOk]⟩ rfl⟩

/-- Counterexample to C3 as stated: from a fresh session with
`max_parallel = MAX_ACTIVE_REQUESTS = 8`, five Text frames, three
carrying a Connect plus a Request, one a single Request, and one more
a Connect plus a Request, drive `reqs_in_flight` through 2, 4, 6, 7
and finally 9 — the queue-drain loop checks the cap only before a
frame is relayed, and one frame may add two in-flight requests, so
`reqs_in_flight` exceeds MAX_ACTIVE_REQUESTS. -/
theorem claim_C3_counterexample :
    (runToState cjpWs cmfjWs "xid" (initSession "addr" "dom" MAX_ACTIVE_REQUESTS)
        wsRunInputs).map (fun s => s.core.reqs_in_flight) = some 9
    ∧ ¬ 9 ≤ MAX_ACTIVE_REQUESTS := by
  exact ⟨rfl, by decide⟩

theorem ws_relay_reqs (jparse : String → Except String Json)
    (mfj : Json → Option Message) (mkxid : String) (core : WsCore)
    (text : String) (core2 : WsCore) (sends : List BusSend)
    (h : relay_to_osrf_ws jparse mfj mkxid core text = .ok (core2, sends)) :
    core2.reqs_in_flight = core.reqs_in_flight + frameCRCount jparse mfj text := by
  cases hjp : jparse text with
  | error e => simp [relay_to_osrf_ws, hjp] at h
  | ok w =>
    cases hth : (w.get "thread").asStr with
    | none => simp [relay_to_osrf_ws, hjp, hth] at h
    | some th =>
      by_cases hsize : th.utf8ByteSize > MAX_THREAD_SIZE
      · simp [relay_to_osrf_ws, hjp, hth, hsize] at h
      · cases hsv : (w.get "service").asStr with
        | none => simp [relay_to_osrf_ws, hjp, hth, if_neg hsize, hsv] at h
        | some sv =>
          cases hbb : wsBuildBody mfj th core (wsMsgList w) with
          | error e =>
            simp [relay_to_osrf_ws, hjp, hth, if_neg hsize, hsv, hbb] at h
          | ok p =>
            obtain ⟨c2, bd⟩ := p
            have hr := (wsBuildBody_spec mfj th _ _ _ _ hbb).2.2
            cases hga : alGet core.osrf_sessions th with
            | some a =>
              simp only [relay_to_osrf_ws, hjp, hth, if_neg hsize, hsv, hbb, hga,
                Except.ok.injEq, Prod.mk.injEq] at h
              obtain ⟨h1, -⟩ := h
              subst h1
              rw [hr, frameCRCount, hjp]
            | none =>
              simp only [relay_to_osrf_ws, hjp, hth, if_neg hsize, hsv, hbb, hga,
                Except.ok.injEq, Prod.mk.injEq] at h
              obtain ⟨h1, -⟩ := h
              subst h1
              rw [hr, frameCRCount, hjp]

theorem pq_bound (jparse : String → Except String Json)
    (mfj : Json → Option Message) (mkxid : String) (maxPar : Nat)
    (H : ∀ t, frameCRCount jparse mfj t ≤ 1) :
    ∀ (queue : List String) (core core3 : WsCore) (q3 : List String)
      (sends : List BusSend),
      core.reqs_in_flight ≤ maxPar →
      processQueueAux jparse mfj mkxid maxPar core queue = .ok (core3, q3, sends) →
      core3.reqs_in_flight ≤ maxPar
  | [], core, core3, q3, sends => fun hb h => by
    rw [processQueueAux] at h
    simp only [Except.ok.injEq, Prod.mk.injEq] at h
    obtain ⟨h1, -⟩ := h
    subst h1
    exact hb
  | text :: rest, core, core3, q3, sends => fun hb h => by
    rw [processQueueAux] at h
    by_cases hlt : core.reqs_in_flight < maxPar
    · rw [if_pos hlt] at h
      cases hrel : relay_to_osrf_ws jparse mfj mkxid core text with
      | error e => rw [hrel] at h; exact absurd h (by simp)
      | ok p =>
        obtain ⟨c2, sends1⟩ := p
        simp only [hrel] at h
        have hc2 : c2.reqs_in_flight ≤ maxPar := by
          have hr := ws_relay_reqs jparse mfj mkxid core text c2 sends1 hrel
          have hcnt := H text
          omega
        cases hrec : processQueueAux jparse mfj mkxid maxPar c2 rest with
        | error e => simp [hrec] at h
        | ok p2 =>
          obtain ⟨c3, q3x, sends2⟩ := p2
          simp only [hrec] at h
          simp only [Except.ok.injEq, Prod.mk.injEq] at h
          obtain ⟨h1, -⟩ := h
          subst h1
          exact pq_bound jparse mfj mkxid maxPar H rest c2 c3 q3x sends2 hc2 hrec
    · rw [if_neg hlt] at h
      simp only [Except.ok.injEq, Prod.mk.injEq] at h
      obtain ⟨h1, -⟩ := h
      subst h1
      exact hb

theorem pq_at_cap (jparse : String → Except String Json)
    (mfj : Json → Option Message) (mkxid : String) (maxPar : Nat)
    (core : WsCore) (h : ¬ core.reqs_in_flight < maxPar) :
    ∀ queue, processQueueAux jparse mfj mkxid maxPar core queue
      = .ok (core, queue, [])
  | [] => by rw [processQueueAux]
  | t :: rest => by rw [processQueueAux, if_neg h]

theorem wsStatusStep_reqs_le (th fr : String) (acc : WsCore × Bool)
    (m : Message) :
    (wsStatusStep th fr acc m).1.reqs_in_flight ≤ acc.1.reqs_in_flight := by
  cases hp : m.payload with
  | status s =>
    simp only [wsStatusStep, hp]
    split_ifs <;> simp
  | method name params => simp [wsStatusStep, hp]
  | result rstatus content => simp [wsStatusStep, hp]
  | noPayload => simp [wsStatusStep, hp]

theorem foldl_status_reqs_le (th fr : String) :
    ∀ (body : List Message) (acc : WsCore × Bool),
      (body.foldl (wsStatusStep th fr) acc).1.reqs_in_flight
        ≤ acc.1.reqs_in_flight
  | [], _ => le_refl _
  | m :: rest, acc =>
    le_trans (foldl_status_reqs_le th fr rest _) (wsStatusStep_reqs_le th fr acc m)

theorem rtw_reqs_le (core : WsCore) (tm : TransportMessage) :
    (relay_to_websocket_ws core tm).1.reqs_in_flight ≤ core.reqs_in_flight :=
  foldl_status_reqs_le tm.thread tm.fromAddr tm.body (core, false)

theorem pmq_bound (jparse : String → Except String Json)
    (mfj : Json → Option Message) (mkxid : String)
    (H : ∀ t, frameCRCount jparse mfj t ≤ 1) (s : WsSession)
    (s2 : WsSession) (sends : List BusSend)
    (hb : s.core.reqs_in_flight ≤ s.max_parallel)
    (h : process_message_queue_ws jparse mfj mkxid s = .ok (s2, sends)) :
    s2.core.reqs_in_flight ≤ s2.max_parallel
    ∧ s2.max_parallel = s.max_parallel := by
  rw [process_message_queue_ws] at h
  cases hq : processQueueAux jparse mfj mkxid s.max_parallel s.core
      s.request_queue with
  | error e => rw [hq] at h; exact absurd h (by simp)
  | ok p =>
    obtain ⟨c2, q2, sd⟩ := p
    rw [hq] at h
    simp only [Except.ok.injEq, Prod.mk.injEq] at h
    obtain ⟨h1, -⟩ := h
    subst h1
    exact ⟨pq_bound jparse mfj mkxid s.max_parallel H s.request_queue s.core
      c2 q2 sd hb hq, rfl⟩

theorem step_bound (jparse : String → Except String Json)
    (mfj : Json → Option Message) (mkxid : String)
    (H : ∀ t, frameCRCount jparse mfj t ≤ 1) (s : WsSession)
    (cm : ChannelMessage) (s2 : WsSession) (outs : List WsEffect)
    (hb : s.core.reqs_in_flight ≤ s.max_parallel)
    (h : sessionStep jparse mfj mkxid s cm = .next s2 outs) :
    s2.core.reqs_in_flight ≤ s2.max_parallel
    ∧ s2.max_parallel = s.max_parallel := by
  cases cm with
  | inbound m =>
    simp only [sessionStep] at h
    by_cases hcl : (handle_inbound_message_ws s.request_queue m).2.2 = true
    · rw [if_pos hcl] at h
      exact absurd h (by simp)
    · rw [if_neg hcl] at h
      cases hq : process_message_queue_ws jparse mfj mkxid
          { s with request_queue := (handle_inbound_message_ws s.request_queue m).1 } with
      | error e => rw [hq] at h; exact absurd h (by simp)
      | ok p =>
        obtain ⟨s2x, sends⟩ := p
        rw [hq] at h
        simp only [StepRes.next.injEq] at h
        obtain ⟨h1, -⟩ := h
        subst h1
        exact pmq_bound jparse mfj mkxid H
          { s with request_queue := (handle_inbound_message_ws s.request_queue m).1 }
          s2x sends hb hq
  | outbound tm =>
    simp only [sessionStep] at h
    cases hq : process_message_queue_ws jparse mfj mkxid
        { s with core := (relay_to_websocket_ws s.core tm).1 } with
    | error e => rw [hq] at h; exact absurd h (by simp)
    | ok p =>
      obtain ⟨s2x, sends⟩ := p
      rw [hq] at h
      simp only [StepRes.next.injEq] at h
      obtain ⟨h1, -⟩ := h
      subst h1
      exact pmq_bound jparse mfj mkxid H
        { s with core := (relay_to_websocket_ws s.core tm).1 } s2x sends
        (le_trans (rtw_reqs_le s.core tm) hb) hq

theorem run_bound (jparse : String → Except String Json)
    (mfj : Json → Option Message) (mkxid : String)
    (H : ∀ t, frameCRCount jparse mfj t ≤ 1) :
    ∀ (ins : List ChannelMessage) (s s2 : WsSession),
      s.core.reqs_in_flight ≤ s.max_parallel →
      runToState jparse mfj mkxid s ins = some s2 →
      s2.core.reqs_in_flight ≤ s2.max_parallel
      ∧ s2.max_parallel = s.max_parallel
  | [], s, s2 => fun hb h => by
    rw [runToState] at h
    simp only [Option.some.injEq] at h
    subst h
    exact ⟨hb, rfl⟩
  | cm :: rest, s, s2 => fun hb h => by
    rw [runToState] at h
    cases hstep : sessionStep jparse mfj mkxid s cm with
    | closed => rw [hstep] at h; exact absurd h (by simp)
    | failed e => rw [hstep] at h; exact absurd h (by simp)
    | next sx outs =>
      rw [hstep] at h
      have hs := step_bound jparse mfj mkxid H s cm sx outs hb hstep
      have hr := run_bound jparse mfj mkxid H rest sx s2 hs.1 h
      exact ⟨hr.1, hr.2.trans hs.2⟩

/-- Claim C3 (amended): provided every Text frame carries at most one
Connect or Request message, `reqs_in_flight` never exceeds the
session's `max_parallel` (MAX_ACTIVE_REQUESTS = 8 by default): one
listen-loop step preserves the bound, and every state reachable from
a fresh session satisfies it.  Unconditionally — for any frame parser
and message decoder — when a Text frame arrives with `reqs_in_flight`
at the cap and the backlog below MAX_BACKLOG_SIZE, the frame is
enqueued and nothing is sent to the bus.  (As stated the claim fails:
one frame can carry two Connect/Request messages and push the counter
from 7 to 9, see the counterexample.) -/
theorem claim_C3_amended (jparse : String → Except String Json)
    (mfj : Json → Option Message) (mkxid : String) :
    ((∀ t, frameCRCount jparse mfj t ≤ 1) →
      ∀ (s : WsSession) (cm : ChannelMessage) (s2 : WsSession)
        (outs : List WsEffect),
      s.core.reqs_in_flight ≤ s.max_parallel →
      sessionStep jparse mfj mkxid s cm = .next s2 outs →
      s2.core.reqs_in_flight ≤ s2.max_parallel
        ∧ s2.max_parallel = s.max_parallel)
    ∧ ((∀ t, frameCRCount jparse mfj t ≤ 1) →
      ∀ (addr dom : String) (ins : List ChannelMessage) (s2 : WsSession),
      runToState jparse mfj mkxid (initSession addr dom MAX_ACTIVE_REQUESTS) ins
        = some s2 →
      s2.core.reqs_in_flight ≤ MAX_ACTIVE_REQUESTS)
    ∧ (∀ (s : WsSession) (t : String),
      s.core.reqs_in_flight = s.max_parallel →
      t.utf8ByteSize < MAX_MESSAGE_SIZE →
      s.request_queue.length < MAX_BACKLOG_SIZE →
      sessionStep jparse mfj mkxid s (.inbound (.text t))
        = .next { s with request_queue := s.request_queue ++ [t] } []) := by
  refine ⟨fun H s cm s2 outs => step_bound jparse mfj mkxid H s cm s2 outs,
    ?_, ?_⟩
  · intro H addr dom ins s2 hrun
    have := run_bound jparse mfj mkxid H ins
      (initSession addr dom MAX_ACTIVE_REQUESTS) s2 (Nat.zero_le _) hrun
    have h2 : s2.max_parallel = MAX_ACTIVE_REQUESTS := this.2
    rw [← h2]
    exact this.1
  · intro s t hcap hlen hql
    have hnlt : ¬ s.core.reqs_in_flight < s.max_parallel := by omega
    have hr : handle_inbound_message_ws s.request_queue (.text t)
        = (s.request_queue ++ [t], [], false) := by
      simp [handle_inbound_message_ws, Nat.not_le.mpr hlen, Nat.not_le.mpr hql]
    have hq := pq_at_cap jparse mfj mkxid s.max_parallel s.core hnlt
      (s.request_queue ++ [t])
    simp only [sessionStep, hr]
    simp only [process_message_queue_ws, hq]
    rfl

/-- Witness for the amended C3: with a frame parser that rejects all
frames (zero Connect/Request per frame), a fresh session stays at
zero; and, for the parser of the counterexample run (which can put
two Connect/Request messages in one frame), a session at the cap
still enqueues a new Text frame without any bus send. -/
theorem claim_C3_amended_witness :
    (∀ s2, runToState jparseNone mfjNone "x0" (initSession "a" "d" MAX_ACTIVE_REQUESTS) []
        = some s2 → s2.core.reqs_in_flight ≤ MAX_ACTIVE_REQUESTS)
    ∧ sessionStep cjpWs cmfjWs "x0" ⟨⟨[], 8, "a", "d"⟩, [], 8⟩
        (.inbound (.text "d"))
      = .next ⟨⟨[], 8, "a", "d"⟩, ["d"], 8⟩ [] :=
  ⟨fun s2 => (claim_C3_amended jparseNone mfjNone "x0").2.1
      (fun _ => Nat.zero_le 1) "a" "d" [] s2,
   (claim_C3_amended cjpWs cmfjWs "x0").2.2
     ⟨⟨[], 8, "a", "d"⟩, [], 8⟩ "d" rfl (by decide) (by decide)⟩
